import Mathlib

/-!
Verification of the reconciliation core of app.py (image metadata
reconciliation).

The embedding models the pandas-based core functions of app.py:

* `parse_metadata` (lines 95-116): the CSV branch (`pd.read_csv`) and the
  JSON branch (`pd.read_json`), each wrapped in the try/except that turns
  any failure into an empty frame plus a reported diagnostic;
* `detect_primary_key` (lines 155-159);
* `match_data` (lines 162-166): `pd.merge(..., how='outer', indicator=True)`
  followed by the two `_merge` filters;
* `clean_column_headers` (lines 169-171) and the caller's
  `drop(columns=["_merge"])` in `results_page` (lines 364-365).

Python strings are modelled as lists of Unicode code points (`List Nat`),
so that the ASCII case arithmetic of `str.title()` is plain natural-number
arithmetic.  A pandas `DataFrame` is modelled positionally: a list of
column labels plus a list of rows, each row a list of scalar cells.
-/

/-- A Python string, as its list of Unicode code points. -/
abbrev PyStr := List Nat

/-- A pandas scalar cell: missing (`NaN`/`None`), a string, an int64, a
boolean, a float64 holding an exactly-represented integer (`f n` is the
float64 of the integer `n`, exact for `abs n` up to 2 to the 53rd — the
value an integer column with missing entries widens to), or a cell of a
column whose dtype inference falls outside the modelled fragment
(general float or boolean inference; `other` records the raw field and
asserts nothing about the inferred value). -/
inductive Scalar where
  | na
  | s (v : PyStr)
  | i (n : Int)
  | b (v : Bool)
  | f (n : Int)
  | other (raw : PyStr)
deriving DecidableEq

/-- pandas `isna` on a scalar. -/
def Scalar.isNA : Scalar → Bool
  | .na => true
  | _ => false

/-- Whether a cell holds a string value. -/
def Scalar.isStr : Scalar → Bool
  | .s _ => true
  | _ => false

/-- A pandas DataFrame: ordered column labels plus ordered rows of cells,
stored positionally. -/
structure Table where
  cols : List PyStr
  rows : List (List Scalar)
deriving DecidableEq

/-- The empty frame `pd.DataFrame()`. -/
def emptyTable : Table := ⟨[], []⟩

/-- A reported diagnostic: app.py shows it with `st.error` / `st.warning`;
the message text is presentation and is not modelled. -/
inductive Diag where
  | parseFailure
deriving DecidableEq

/-! ### Header normalization (`clean_column_headers`, app.py 169-171) -/

/-- ASCII upper-case letter test on a code point. -/
def isUpperN (n : Nat) : Bool := decide (65 ≤ n) && decide (n ≤ 90)

/-- ASCII lower-case letter test on a code point. -/
def isLowerN (n : Nat) : Bool := decide (97 ≤ n) && decide (n ≤ 122)

/-- ASCII letter test on a code point (the cased characters of the modelled
ASCII fragment of Python's str methods). -/
def isAlphaN (n : Nat) : Bool := isUpperN n || isLowerN n

/-- ASCII `str.upper` on one code point. -/
def toUpperN (n : Nat) : Nat := if isLowerN n then n - 32 else n

/-- ASCII `str.lower` on one code point. -/
def toLowerN (n : Nat) : Nat := if isUpperN n then n + 32 else n

/-- Python `str.title` (ASCII fragment): a cased character is upper-cased
when the previous character is not cased and lower-cased otherwise; the
second argument carries whether the previous character was cased. -/
def pyTitle : List Nat → Bool → List Nat
  | [], _ => []
  | c :: cs, prev =>
    (if isAlphaN c then (if prev then toLowerN c else toUpperN c) else c)
      :: pyTitle cs (isAlphaN c)

/-- One step of `col.replace('_', ' ')`: code point 95 is an underscore and
code point 32 a space. -/
def underscoreToSpace (c : Nat) : Nat := if c = 95 then 32 else c

/-- `col.replace('_', ' ').title()` on one column label (app.py line 170). -/
def cleanHeader (col : PyStr) : PyStr :=
  pyTitle (col.map underscoreToSpace) false

/-- app.py `clean_column_headers` (169-171): it assigns the renamed labels to
the columns of the SAME frame it was given (`df.columns = [...]`) and then
returns that frame.  The in-place update is modelled by state passing: the
result is the pair (returned frame, the input frame as it is after the
call); the Python function makes these the same object. -/
def clean_column_headers (df : Table) : Table × Table :=
  let renamed : Table := ⟨df.cols.map cleanHeader, df.rows⟩
  (renamed, renamed)

/-- The title-casing the spec describes for the normalizer: upper-case the
first letter of each whitespace-delimited word and leave every other
character of each word unchanged.  The second argument carries whether the
scan is at the start of a word. -/
def specTitle : List Nat → Bool → List Nat
  | [], _ => []
  | c :: cs, atStart =>
    if c = 32 then c :: specTitle cs true
    else (if atStart then toUpperN c else c) :: specTitle cs false

/-- The spec's header transform (underscores to spaces, then the
whitespace-word title casing of `specTitle`). -/
def specClean (col : PyStr) : PyStr :=
  specTitle (col.map underscoreToSpace) true

/-- The corrected description of the title casing actually performed: each
cased character is upper-cased exactly when its predecessor (if any) is not
cased, and lower-cased otherwise; uncased characters pass through.  Stated
by pairing every character with the casedness of its predecessor. -/
def titleAmended (u : List Nat) : List Nat :=
  (u.zip (false :: u.map isAlphaN)).map
    (fun cp => if isAlphaN cp.1 then
        (if cp.2 then toLowerN cp.1 else toUpperN cp.1)
      else cp.1)

/-! ### Key inference (`detect_primary_key`, app.py 155-159) -/

/-- The values of the column at position `j` (pandas `df[col]` for the label
at that position; app.py iterates `df.columns` whose labels are unique for
the inputs the app builds). -/
def colVals (rows : List (List Scalar)) (j : Nat) : List Scalar :=
  rows.map (fun r => r.getD j Scalar.na)

/-- pandas `Series.is_unique`: no two entries of the column are equal
(pandas `duplicated` counts `NaN` as equal to `NaN`, as does `Scalar`
equality). -/
def is_unique (l : List Scalar) : Bool := decide l.Nodup

/-- pandas `df[column].notnull().all()`. -/
def notnull_all (l : List Scalar) : Bool := l.all (fun v => !v.isNA)

/-- The test applied to the column at position `j` by the loop body of
`detect_primary_key` (app.py line 157). -/
def goodB (rows : List (List Scalar)) (j : Nat) : Bool :=
  is_unique (colVals rows j) && notnull_all (colVals rows j)

/-- The column scan of `detect_primary_key`: walk the labels left to right,
keeping the position of the current label, and return the first label whose
column passes the uniqueness and non-null test. -/
def scanKey (rows : List (List Scalar)) : Nat → List PyStr → Option PyStr
  | _, [] => none
  | j, c :: rest =>
    if goodB rows j then some c else scanKey rows (j + 1) rest

/-- app.py `detect_primary_key` (155-159).  The fallback `df.columns[0]`
raises `IndexError` on a zero-column frame; that raised error is modelled by
`none` (on a zero-column frame `head?` is `none`), so the function never
fabricates a key there. -/
def detect_primary_key (t : Table) : Option PyStr :=
  match scanKey t.rows 0 t.cols with
  | some c => some c
  | none => t.cols.head?

/-! ### Matcher (`match_data`, app.py 162-166) -/

/-- The label of the pandas merge indicator column `_merge`
(code points of the string "_merge"). -/
def mergeName : PyStr := [95, 109, 101, 114, 103, 101]

/-- The suffix `_x` pandas appends to the left copy of an overlapping
non-key column. -/
def suffX : PyStr := [95, 120]

/-- The suffix `_y` pandas appends to the right copy of an overlapping
non-key column. -/
def suffY : PyStr := [95, 121]

/-- The indicator value `both`. -/
def bothTag : Scalar := .s [98, 111, 116, 104]

/-- The indicator value `left_only`. -/
def leftOnlyTag : Scalar := .s [108, 101, 102, 116, 95, 111, 110, 108, 121]

/-- The indicator value `right_only`. -/
def rightOnlyTag : Scalar := .s [114, 105, 103, 104, 116, 95, 111, 110, 108, 121]

/-- The cell of `row` under the column label `k` of the label list `cols`
(`Scalar.na` when the label is absent; `match_data` is only invoked on
present labels, see the guard in `match_data`). -/
def getCol (cols : List PyStr) (row : List Scalar) (k : PyStr) : Scalar :=
  match cols.findIdx? (fun c => c == k) with
  | some j => row.getD j Scalar.na
  | none => Scalar.na

/-- Key equality used by `pd.merge(left, right, left_on=lk, right_on=rk)`:
the two key cells are equal as scalars (pandas joins `NaN` keys with `NaN`
keys, matching `Scalar` equality; no coercion between, say, the integer 1
and the string "1"). -/
def keyEq (lcols rcols : List PyStr) (lk rk : PyStr)
    (l r : List Scalar) : Bool :=
  getCol lcols l lk == getCol rcols r rk

/-- A row of the outer merge with its provenance: the left input row with
its position (if the row has a left side) and the right input row with its
position (if it has a right side).  `(some, some)` is an indicator-`both`
row, `(some, none)` a `left_only` row, `(none, some)` a `right_only` row. -/
abbrev MEntry := Option (Nat × List Scalar) × Option (Nat × List Scalar)

/-- Pair each row with its position, starting at `n`. -/
def enumF : Nat → List (List Scalar) → List (Nat × List Scalar)
  | _, [] => []
  | n, r :: rs => (n, r) :: enumF (n + 1) rs

/-- The merge rows produced for one left row `li`: one `both` row per
key-equal right row, or a single `left_only` row when no right row has an
equal key.  `q` is the key-equality test between a left and a right row. -/
def leftBlock (renum : List (Nat × List Scalar))
    (q : List Scalar → List Scalar → Bool) (li : Nat × List Scalar) :
    List MEntry :=
  let ms := renum.filter (fun ri => q li.2 ri.2)
  if ms.isEmpty then [(some li, none)]
  else ms.map (fun ri => (some li, some ri))

/-- The merge rows produced for the left input rows, in order, the counter
giving each left row its position. -/
def leftPart (renum : List (Nat × List Scalar))
    (q : List Scalar → List Scalar → Bool) :
    Nat → List (List Scalar) → List MEntry
  | _, [] => []
  | n, l :: ls => leftBlock renum q (n, l) ++ leftPart renum q (n + 1) ls

/-- The `right_only` merge rows: one per right row no left row key-matches. -/
def rightPart (lrows : List (List Scalar))
    (renum : List (Nat × List Scalar))
    (q : List Scalar → List Scalar → Bool) : List MEntry :=
  (renum.filter (fun ri => lrows.all (fun l => !q l ri.2))).map
    (fun ri => ((none : Option (Nat × List Scalar)), some ri))

/-- The rows of `pd.merge(left, right, left_on=lk, right_on=rk, how='outer',
indicator=True)`, with provenance.  Row order in pandas may differ (an outer
merge may sort by key); every property proved below counts or measures rows,
which is order-invariant. -/
def outerMergeE (left right : Table) (lk rk : PyStr) : List MEntry :=
  leftPart (enumF 0 right.rows) (keyEq left.cols right.cols lk rk) 0 left.rows
    ++ rightPart left.rows (enumF 0 right.rows)
        (keyEq left.cols right.cols lk rk)

/-- Whether a merge row has indicator `both`. -/
def isBoth (e : MEntry) : Bool := e.1.isSome && e.2.isSome

/-- app.py `match_data` at the level of provenance-tagged rows: the merged
rows with `_merge == 'both'` and those with `_merge != 'both'`
(lines 164-165). -/
def match_data_entries (left right : Table) (lk rk : PyStr) :
    List MEntry × List MEntry :=
  ((outerMergeE left right lk rk).filter isBoth,
   (outerMergeE left right lk rk).filter (fun e => !isBoth e))

/-- Does the merge row carry the left input row at position `i`? -/
def hasLIdx (i : Nat) (e : MEntry) : Bool :=
  match e.1 with
  | some li => li.1 == i
  | none => false

/-- Does the merge row carry the right input row at position `j`? -/
def hasRIdx (j : Nat) (e : MEntry) : Bool :=
  match e.2 with
  | some ri => ri.1 == j
  | none => false

/-- The column labels of the merged frame: left labels (overlapping
non-key labels suffixed `_x`), then right labels (suffixed `_y`; when the
two key labels are equal pandas drops the right key column and keeps a
single coalesced key column), then the indicator column `_merge`. -/
def mergedCols (lcols rcols : List PyStr) (lk rk : PyStr) : List PyStr :=
  let ov := fun c => lcols.contains c && rcols.contains c
  let co := lk == rk
  (lcols.map (fun c => if ov c && !(co && c == lk) then c ++ suffX else c))
    ++ ((if co then rcols.filter (fun c => !(c == rk)) else rcols).map
        (fun c => if ov c && !(co && c == rk) then c ++ suffY else c))
    ++ [mergeName]

/-- Flatten one provenance-tagged merge row into a cell row of the merged
frame: left cells (or `NaN`s), right cells (or `NaN`s; the right key cell is
dropped when the key labels coincide, and for a `right_only` row the
coalesced key column then receives the right key value), and the indicator
cell. -/
def mergedRow (left right : Table) (lk rk : PyStr) (e : MEntry) :
    List Scalar :=
  let co := lk == rk
  let rj := (right.cols.findIdx? (fun c => c == rk)).getD 0
  let rvals := fun (r : List Scalar) => if co then r.eraseIdx rj else r
  let rwidth := if co then right.cols.length - 1 else right.cols.length
  match e with
  | (some li, some ri) => li.2 ++ rvals ri.2 ++ [bothTag]
  | (some li, none) => li.2 ++ List.replicate rwidth Scalar.na ++ [leftOnlyTag]
  | (none, some ri) =>
      let lnull := List.replicate left.cols.length Scalar.na
      let lvals := if co then
          lnull.set ((left.cols.findIdx? (fun c => c == lk)).getD 0)
            (getCol right.cols ri.2 rk)
        else lnull
      lvals ++ rvals ri.2 ++ [rightOnlyTag]
  | (none, none) => []

/-- app.py `match_data` (162-166) at frame level.  `none` models the raised
exceptions of `pd.merge`: a `ValueError` when an input already has a column
named `_merge` (indicator collision) and a `KeyError` when a key label is
absent.  Otherwise the merged rows are split on the `_merge` indicator and
both parts keep every merged column, `_merge` included. -/
def match_data (left right : Table) (lk rk : PyStr) :
    Option (Table × Table) :=
  if mergeName ∈ left.cols ∨ mergeName ∈ right.cols then none
  else if lk ∈ left.cols ∧ rk ∈ right.cols then
    let cs := mergedCols left.cols right.cols lk rk
    let es := match_data_entries left right lk rk
    some (⟨cs, es.1.map (mergedRow left right lk rk)⟩,
          ⟨cs, es.2.map (mergedRow left right lk rk)⟩)
  else none

/-- `df.drop(columns=[k])` (results_page, app.py 364-365): remove every
column labelled `k` together with its cells. -/
def dropColumn (t : Table) (k : PyStr) : Table :=
  ⟨t.cols.filter (fun c => !(c == k)),
   t.rows.map (fun r => ((t.cols.zip r).filter (fun p => !(p.1 == k))).map
     (fun p => p.2))⟩

/-! ### Format parser (`parse_metadata`, app.py 95-116) -/

/-- A JSON value, as handed to `pd.read_json` after decoding. -/
inductive Json where
  | null
  | b (v : Bool)
  | num (n : Int)
  | str (s : PyStr)
  | arr (xs : List Json)
  | obj (fs : List (PyStr × Json))

/-- A scalar JSON leaf as a pandas cell (`null` becomes missing). -/
def scalarOfJson : Json → Option Scalar
  | .null => some .na
  | .b v => some (.b v)
  | .num n => some (.i n)
  | .str s => some (.s s)
  | _ => none

/-- Is the JSON value an object? -/
def Json.isObj : Json → Bool
  | .obj _ => true
  | _ => false

/-- Is the top-level JSON value a boolean, a number, or a string?  These
are exactly the top levels `pd.read_json` raises `ValueError` on; a
top-level `null` does NOT raise — `DataFrame(None)` is simply the empty
frame. -/
def Json.isNonNullScalar : Json → Bool
  | .b _ => true
  | .num _ => true
  | .str _ => true
  | _ => false

/-- Is the JSON value an array? -/
def Json.isArr : Json → Bool
  | .arr _ => true
  | _ => false

/-- The union of the keys of a list of JSON objects, in first-appearance
order: the column schema pandas builds for a list of records. -/
def unionKeys (objs : List (List (PyStr × Json))) : List PyStr :=
  objs.foldl
    (fun acc fs => fs.foldl
      (fun a p => if a.contains p.1 then a else a ++ [p.1]) acc) []

/-- Look a key up in a JSON object. -/
def lookupF (fs : List (PyStr × Json)) (k : PyStr) : Option Json :=
  (fs.find? (fun p => p.1 == k)).map (fun p => p.2)

/-- `pd.DataFrame(list_of_records)`: the columns are the union of the keys,
a key absent in a record gives a missing cell.  A record with a nested
(non-scalar) value is outside the modelled fragment and is conservatively
mapped to the error case. -/
def recordsTable (objs : List (List (PyStr × Json))) : Option Table :=
  let cols := unionKeys objs
  (objs.mapM (fun fs => cols.mapM (fun c =>
    match lookupF fs c with
    | none => some Scalar.na
    | some j => scalarOfJson j))).map (fun rs => ⟨cols, rs⟩)

/-- `pd.DataFrame(dict_of_columns)` for a top-level JSON object whose values
are arrays of scalars: one column per key, rows zipped by position; pandas
raises when the arrays have unequal lengths.  Objects whose values are
themselves objects (which pandas reads as an index-labelled frame) are
outside the modelled fragment and are conservatively mapped to the error
case. -/
def colsTable (fs : List (PyStr × Json)) : Option Table :=
  match fs.mapM (fun p =>
    match p.2 with
    | .arr xs => (xs.mapM scalarOfJson).map (fun vs => (p.1, vs))
    | _ => none) with
  | none => none
  | some cv =>
    match cv with
    | [] => some ⟨[], []⟩
    | c0 :: rest =>
      if rest.all (fun p => p.2.length == c0.2.length) then
        some ⟨cv.map (fun p => p.1),
          (List.range c0.2.length).map (fun i =>
            cv.map (fun p => p.2.getD i Scalar.na))⟩
      else none

/-- `pd.read_json` with its defaults (`typ='frame'`, `orient='columns'`,
app.py line 100), on the fragment the claims touch: a top-level array of
flat objects gives a record-per-row frame; a top-level array of scalars
gives a single column labelled "0"; a top-level object of equal-length
scalar arrays gives a column-oriented frame; a top-level `null` gives
`DataFrame(None)` — the empty frame, with NO error raised; a boolean,
number, or string top level raises `ValueError` (`none`).  Inputs outside
this fragment (nested values, dict-of-dicts index-labelled frames, arrays
of arrays) are conservatively mapped to `none`. -/
def read_json : Json → Option Table
  | .null => some emptyTable
  | .arr xs =>
    if xs.all Json.isObj then
      match xs.mapM (fun j => match j with | .obj fs => some fs | _ => none)
        with
      | some objs => recordsTable objs
      | none => none
    else
      (xs.mapM scalarOfJson).map (fun vs => ⟨[[48]], vs.map (fun v => [v])⟩)
  | .obj fs => colsTable fs
  | _ => none

/-- The JSON branch of `parse_metadata` together with its try/except
(app.py 96, 99-100, 114-116): any failure — undecodable text (`none` input)
or a `ValueError` from `pd.read_json` — is caught and converted into the
empty frame plus a reported diagnostic. -/
def parse_metadata_json (js : Option Json) : Table × Option Diag :=
  match js with
  | none => (emptyTable, some .parseFailure)
  | some v =>
    match read_json v with
    | some t => (t, none)
    | none => (emptyTable, some .parseFailure)

/-- ASCII digit test on a code point. -/
def isDigit (c : Nat) : Bool := decide (48 ≤ c) && decide (c ≤ 57)

/-- A nonempty all-digit string. -/
def digitsNonempty (l : List Nat) : Bool := !l.isEmpty && l.all isDigit

/-- Integer-literal syntax as recognized by the `pd.read_csv` type
inference for the modelled fragment: digits, optionally preceded by a
minus sign (code point 45). -/
def isIntLit (s : PyStr) : Bool :=
  digitsNonempty s ||
    (match s with
     | 45 :: rest => digitsNonempty rest
     | _ => false)

/-- The natural number denoted by a digit string. -/
def natOfDigits (l : List Nat) : Nat :=
  l.foldl (fun a c => a * 10 + (c - 48)) 0

/-- The integer denoted by an integer literal. -/
def intOfLit (s : PyStr) : Int :=
  match s with
  | 45 :: rest => -(natOfDigits rest : Int)
  | _ => (natOfDigits s : Int)

/-- The default `na_values` strings of `pd.read_csv`: every field equal to
one of these (the empty field included) is read as a missing cell before
any dtype conversion. -/
def naTokens : List PyStr :=
  [[45, 49, 46, 35, 73, 78, 68],  -- -1.#IND
   [49, 46, 35, 81, 78, 65, 78],  -- 1.#QNAN
   [49, 46, 35, 73, 78, 68],  -- 1.#IND
   [45, 49, 46, 35, 81, 78, 65, 78],  -- -1.#QNAN
   [35, 78, 47, 65, 32, 78, 47, 65],  -- #N/A N/A
   [35, 78, 47, 65],  -- #N/A
   [78, 47, 65],  -- N/A
   [110, 47, 97],  -- n/a
   [78, 65],  -- NA
   [60, 78, 65, 62],  -- <NA>
   [35, 78, 65],  -- #NA
   [78, 85, 76, 76],  -- NULL
   [110, 117, 108, 108],  -- null
   [78, 97, 78],  -- NaN
   [45, 78, 97, 78],  -- -NaN
   [110, 97, 110],  -- nan
   [45, 110, 97, 110],  -- -nan
   [78, 111, 110, 101],  -- None
   []]  -- the empty field

/-- Is the raw field one of the default NA tokens? -/
def isNAToken (s : PyStr) : Bool := naTokens.contains s

/-- Does the integer literal fit int64 (pandas parses an all-integer
column as int64 only within that range; beyond it the column widens)? -/
def isInt64Lit (s : PyStr) : Bool :=
  isIntLit s && decide (-9223372036854775808 ≤ intOfLit s) &&
    decide (intOfLit s ≤ 9223372036854775807)

/-- Is the integer exactly representable in float64 (needed when an
integer column with missing entries widens to float64)?  Exact up to 2 to
the 53rd in absolute value. -/
def intFitsFloat (s : PyStr) : Bool :=
  decide (-9007199254740992 ≤ intOfLit s) &&
    decide (intOfLit s ≤ 9007199254740992)

/-- Drop one leading sign character. -/
def stripSign (s : PyStr) : PyStr :=
  match s with
  | 43 :: rest => rest
  | 45 :: rest => rest
  | _ => s

/-- Case-insensitive inf / infinity / nan, with an optional sign: special
words float64 parsing may accept. -/
def specialFloatWord (s : PyStr) : Bool :=
  ((stripSign s).map toLowerN) == [105, 110, 102] ||
  ((stripSign s).map toLowerN) == [105, 110, 102, 105, 110, 105, 116, 121] ||
  ((stripSign s).map toLowerN) == [110, 97, 110]

/-- Overapproximation of the field syntax the pandas tokenizer may accept
as a float64: at least one digit and only digits, signs, dot, exponent
letters and surrounding whitespace — or a special float word.  Fields
outside this overapproximation (and outside the boolean and NA lexicons)
are guaranteed to stay strings (object dtype). -/
def numericish (s : PyStr) : Bool :=
  (s.any isDigit && s.all (fun c => isDigit c ||
    [43, 45, 46, 69, 101, 32, 9].contains c)) || specialFloatWord s

/-- The boolean field lexicon of the tokenizer (overapproximated with the
lower-case forms). -/
def boolish (s : PyStr) : Bool :=
  s == [84, 114, 117, 101] || s == [84, 82, 85, 69] ||
  s == [116, 114, 117, 101] || s == [70, 97, 108, 115, 101] ||
  s == [70, 65, 76, 83, 69] || s == [102, 97, 108, 115, 101]

/-- The `pd.read_csv` cell typing of one raw column, per pandas dtype
inference:
1. a nonempty column of int64 literals is parsed as int64 integers;
2. a column of exactly-representable integer literals and NA tokens is
   widened to float64: integer-valued floats with the NA tokens missing
   (in particular an all-NA column is all missing);
3. a column whose fields are all NA tokens, numeric-looking, or
   boolean-looking — but not of the first two shapes — undergoes float or
   boolean inference, outside the modelled fragment: its cells are the
   `Scalar.other` marker, which asserts nothing about the parsed value;
4. any other column is object dtype: fields keep their string form and
   NA tokens are missing. -/
def inferCol (vals : List PyStr) : List Scalar :=
  if !vals.isEmpty && vals.all isInt64Lit then
    vals.map (fun v => Scalar.i (intOfLit v))
  else if vals.all (fun v => isNAToken v || (isIntLit v && intFitsFloat v))
    then
    vals.map (fun v => if isNAToken v then Scalar.na
      else Scalar.f (intOfLit v))
  else if vals.all (fun v => isNAToken v || numericish v || boolish v) then
    vals.map (fun v => Scalar.other v)
  else
    vals.map (fun v => if isNAToken v then Scalar.na else Scalar.s v)

/-- `pd.read_csv` on the lexed grid (header record then data records): the
first record gives the column labels, data records map positionally (a
short record is padded with missing fields), and each column goes through
the type inference of `inferCol`. -/
def read_csv_table (header : List PyStr) (data : List (List PyStr)) :
    Table :=
  let ncols := header.length
  let colOf := fun j => inferCol (data.map (fun r => r.getD j []))
  ⟨header,
   (List.range data.length).map (fun i =>
     (List.range ncols).map (fun j => (colOf j).getD i Scalar.na))⟩

/-- `pd.read_csv` (app.py 97-98), modelled on the lexed grid of records
(the delimiter and quote handling of the tokenizer is abstracted away; the
claims concern the typing of cells, not the lexing).  An input with no
records raises `EmptyDataError` (`none`). -/
def read_csv (grid : List (List PyStr)) : Option Table :=
  match grid with
  | [] => none
  | header :: data => some (read_csv_table header data)

/-- The CSV branch of `parse_metadata` together with its try/except
(app.py 96-98, 114-116). -/
def parse_metadata_csv (grid : List (List PyStr)) : Table × Option Diag :=
  match read_csv grid with
  | some t => (t, none)
  | none => (emptyTable, some .parseFailure)

/-! ### Concrete fixtures used by witnesses and counterexamples -/

/-- The column label "k" (code point 107). -/
def kLbl : PyStr := [107]

/-- The column label "id". -/
def idLbl : PyStr := [105, 100]

/-- The column label "file". -/
def fileLbl : PyStr := [102, 105, 108, 101]

/-- The column label "a". -/
def aLbl : PyStr := [97]

/-- The column label "order_id". -/
def orderIdLbl : PyStr := [111, 114, 100, 101, 114, 95, 105, 100]

/-- A one-column, one-row table with key value 1. -/
def tabL1 : Table := ⟨[kLbl], [[Scalar.i 1]]⟩

/-- A one-column, one-row table with key value 1 (right side). -/
def tabR1 : Table := ⟨[kLbl], [[Scalar.i 1]]⟩

/-- Two left rows sharing the key 5 (the multiplicity example of the
spec). -/
def tabL5 : Table := ⟨[kLbl], [[Scalar.i 5], [Scalar.i 5]]⟩

/-- One right row with the key 5. -/
def tabR5 : Table := ⟨[kLbl], [[Scalar.i 5]]⟩

/-- A two-column table whose first column is all-null and whose second
column is a unique non-null key. -/
def tabNullFirst : Table :=
  ⟨[aLbl, idLbl], [[Scalar.na, Scalar.i 1], [Scalar.na, Scalar.i 2]]⟩

/-- A one-column table named "order_id" with no rows. -/
def tabOrderId : Table := ⟨[orderIdLbl], []⟩

/-- The header record of the CSV fixture `id,file`. -/
def csvHeaderIdFile : List PyStr := [idLbl, fileLbl]

/-- The single data record `1,a.jpg` of the CSV fixture. -/
def csvDataIdFile : List (List PyStr) := [[[49], [97, 46, 106, 112, 103]]]

/-- The lexed CSV grid of `id,file` over the single record `1,a.jpg`
(the end-to-end fixture of the spec, first record). -/
def gridIdFile : List (List PyStr) := csvHeaderIdFile :: csvDataIdFile

/-- The JSON value of the text `{"a": [1, 2]}`: a top-level object (not an
array) whose single field holds an equal-length array of scalars. -/
def jsonObjArr : Json :=
  Json.obj [(aLbl, Json.arr [Json.num 1, Json.num 2])]

/-! ## Character-level lemmas for the header normalizer -/

theorem isAlphaN_toLowerN (c : Nat) : isAlphaN (toLowerN c) = isAlphaN c := by
  simp only [toLowerN]
  split_ifs with h
  · simp only [isUpperN, Bool.and_eq_true, decide_eq_true_eq] at h
    rw [Bool.eq_iff_iff]
    simp only [isAlphaN, isUpperN, isLowerN, Bool.or_eq_true,
      Bool.and_eq_true, decide_eq_true_eq]
    omega
  · rfl

theorem isAlphaN_toUpperN (c : Nat) : isAlphaN (toUpperN c) = isAlphaN c := by
  simp only [toUpperN]
  split_ifs with h
  · simp only [isLowerN, Bool.and_eq_true, decide_eq_true_eq] at h
    rw [Bool.eq_iff_iff]
    simp only [isAlphaN, isUpperN, isLowerN, Bool.or_eq_true,
      Bool.and_eq_true, decide_eq_true_eq]
    omega
  · rfl

theorem toLowerN_toLowerN (c : Nat) : toLowerN (toLowerN c) = toLowerN c := by
  by_cases h : isUpperN c = true
  · have h1 : 65 ≤ c ∧ c ≤ 90 := by
      simpa only [isUpperN, Bool.and_eq_true, decide_eq_true_eq] using h
    have h2 : isUpperN (c + 32) = false := by
      rw [Bool.eq_false_iff]
      simp only [ne_eq, isUpperN, Bool.and_eq_true, decide_eq_true_eq]
      omega
    simp [toLowerN, h, h2]
  · have h' : isUpperN c = false := Bool.eq_false_iff.mpr h
    simp [toLowerN, h']

theorem toUpperN_toUpperN (c : Nat) : toUpperN (toUpperN c) = toUpperN c := by
  by_cases h : isLowerN c = true
  · have h1 : 97 ≤ c ∧ c ≤ 122 := by
      simpa only [isLowerN, Bool.and_eq_true, decide_eq_true_eq] using h
    have h2 : isLowerN (c - 32) = false := by
      rw [Bool.eq_false_iff]
      simp only [ne_eq, isLowerN, Bool.and_eq_true, decide_eq_true_eq]
      omega
    simp [toUpperN, h, h2]
  · have h' : isLowerN c = false := Bool.eq_false_iff.mpr h
    simp [toUpperN, h']

theorem toLowerN_ne_underscore (c : Nat) (h : c ≠ 95) : toLowerN c ≠ 95 := by
  simp only [toLowerN]
  split_ifs with h2
  · simp only [isUpperN, Bool.and_eq_true, decide_eq_true_eq] at h2
    omega
  · exact h

theorem toUpperN_ne_underscore (c : Nat) (h : c ≠ 95) : toUpperN c ≠ 95 := by
  simp only [toUpperN]
  split_ifs with h2
  · simp only [isLowerN, Bool.and_eq_true, decide_eq_true_eq] at h2
    omega
  · exact h

theorem underscoreToSpace_ne (c : Nat) : underscoreToSpace c ≠ 95 := by
  simp only [underscoreToSpace]
  split <;> omega

theorem underscoreToSpace_id (c : Nat) (h : c ≠ 95) :
    underscoreToSpace c = c := by
  simp only [underscoreToSpace]
  split <;> omega

/-- Every code point produced by `pyTitle` on an underscore-free input is
underscore-free. -/
theorem pyTitle_ne_underscore (u : List Nat) (b : Bool)
    (h : ∀ c ∈ u, c ≠ 95) : ∀ d ∈ pyTitle u b, d ≠ 95 := by
  induction u generalizing b with
  | nil => intro d hd; simp [pyTitle] at hd
  | cons c cs ih =>
    intro d hd
    simp only [pyTitle, List.mem_cons] at hd
    rcases hd with hd | hd
    · subst hd
      have hc : c ≠ 95 := h c (by simp)
      split
      · split
        · exact toLowerN_ne_underscore c hc
        · exact toUpperN_ne_underscore c hc
      · exact hc
    · exact ih (isAlphaN c) (fun x hx => h x (by simp [hx])) d hd

/-- Mapping `underscoreToSpace` over an underscore-free list is the
identity. -/
theorem map_underscoreToSpace_id (u : List Nat) (h : ∀ c ∈ u, c ≠ 95) :
    u.map underscoreToSpace = u := by
  induction u with
  | nil => rfl
  | cons c cs ih =>
    simp only [List.map_cons]
    rw [underscoreToSpace_id c (h c (by simp)),
      ih (fun x hx => h x (by simp [hx]))]

/-- `pyTitle` is idempotent when rerun with the same starting flag. -/
theorem pyTitle_pyTitle (u : List Nat) (b : Bool) :
    pyTitle (pyTitle u b) b = pyTitle u b := by
  induction u generalizing b with
  | nil => rfl
  | cons c cs ih =>
    by_cases hc : isAlphaN c = true
    · cases b with
      | false =>
        simp only [pyTitle, hc, if_true, Bool.false_eq_true, if_false,
          isAlphaN_toUpperN, toUpperN_toUpperN]
        rw [ih true]
      | true =>
        simp only [pyTitle, hc, if_true, isAlphaN_toLowerN,
          toLowerN_toLowerN]
        rw [ih true]
    · have hc' : isAlphaN c = false := Bool.eq_false_iff.mpr hc
      simp only [pyTitle, hc', Bool.false_eq_true, if_false]
      rw [ih false]

/-- `cleanHeader` is idempotent. -/
theorem cleanHeader_idem (col : PyStr) :
    cleanHeader (cleanHeader col) = cleanHeader col := by
  unfold cleanHeader
  rw [map_underscoreToSpace_id (pyTitle (col.map underscoreToSpace) false)
    (pyTitle_ne_underscore (col.map underscoreToSpace) false
      (by intro c hc; rcases List.mem_map.mp hc with ⟨x, -, hx⟩;
          exact hx ▸ underscoreToSpace_ne x))]
  exact pyTitle_pyTitle (col.map underscoreToSpace) false

/-- `pyTitle` computes, characterwise, the case mapping driven by the
casedness of the predecessor character. -/
theorem pyTitle_eq_zip (u : List Nat) (b : Bool) :
    pyTitle u b = (u.zip (b :: u.map isAlphaN)).map
      (fun cp => if isAlphaN cp.1 then
          (if cp.2 then toLowerN cp.1 else toUpperN cp.1)
        else cp.1) := by
  induction u generalizing b with
  | nil => rfl
  | cons c cs ih =>
    simp only [pyTitle, List.map_cons, List.zip_cons_cons]
    rw [ih (isAlphaN c)]

/-! ## Key inference lemmas -/

theorem Scalar.isNA_eq_false (v : Scalar) :
    v.isNA = false ↔ v ≠ Scalar.na := by
  cases v <;> simp [Scalar.isNA]

/-- The loop-body test of `detect_primary_key` holds exactly when the
column's values are pairwise distinct and all non-null. -/
theorem goodB_iff (rows : List (List Scalar)) (j : Nat) :
    goodB rows j = true ↔
      (colVals rows j).Nodup ∧ ∀ v ∈ colVals rows j, v ≠ Scalar.na := by
  simp only [goodB, is_unique, notnull_all, Bool.and_eq_true,
    decide_eq_true_eq, List.all_eq_true, Bool.not_eq_true',
    Scalar.isNA_eq_false]

/-- First-match characterization of the column scan of
`detect_primary_key`: either no column from position `j` on passes the
test and the scan fails, or the scan returns the label of the first
passing column. -/
theorem scanKey_spec (rows : List (List Scalar)) :
    ∀ (cols : List PyStr) (j : Nat),
      (scanKey rows j cols = none ∧
        ∀ m, m < cols.length → goodB rows (j + m) = false) ∨
      (∃ i, ∃ hi : i < cols.length,
        scanKey rows j cols = some (cols.get ⟨i, hi⟩) ∧
        goodB rows (j + i) = true ∧
        ∀ m, m < i → goodB rows (j + m) = false) := by
  intro cols
  induction cols with
  | nil =>
    intro j
    left
    exact ⟨rfl, by intro m hm; simp at hm⟩
  | cons c rest ih =>
    intro j
    by_cases h : goodB rows j = true
    · right
      refine ⟨0, by simp, by simp [scanKey, h], by simpa using h, ?_⟩
      intro m hm
      omega
    · have h' : goodB rows j = false := Bool.eq_false_iff.mpr h
      rcases ih (j + 1) with ⟨hnone, hall⟩ | ⟨i, hi, heq, hg, hprev⟩
      · left
        constructor
        · simp [scanKey, h', hnone]
        · intro m hm
          cases m with
          | zero => simpa using h'
          | succ m2 =>
            have hm2 : m2 < rest.length := by
              simp only [List.length_cons] at hm
              omega
            have e : j + (m2 + 1) = (j + 1) + m2 := by omega
            rw [e]
            exact hall m2 hm2
      · right
        refine ⟨i + 1, by simp only [List.length_cons]; omega, ?_, ?_, ?_⟩
        · simp only [scanKey, h', Bool.false_eq_true, if_false,
            List.get_cons_succ]
          exact heq
        · have e : j + (i + 1) = (j + 1) + i := by omega
          rw [e]
          exact hg
        · intro m hm
          cases m with
          | zero => simpa using h'
          | succ m2 =>
            have e : j + (m2 + 1) = (j + 1) + m2 := by omega
            rw [e]
            exact hprev m2 (by omega)

/-! ## C3: first-match key inference with fallback -/

/-- C3: for every table with at least one column, `detect_primary_key`
scans the columns in declared left-to-right order and returns the first
column whose values are all non-null and pairwise distinct; if no column
satisfies both conditions, it returns the first declared column. -/
theorem detect_primary_key_first_match (t : Table) (h : t.cols ≠ []) :
    (∃ i, ∃ hi : i < t.cols.length,
      detect_primary_key t = some (t.cols.get ⟨i, hi⟩) ∧
      ((colVals t.rows i).Nodup ∧ ∀ v ∈ colVals t.rows i, v ≠ Scalar.na) ∧
      ∀ m, m < i →
        ¬((colVals t.rows m).Nodup ∧
          ∀ v ∈ colVals t.rows m, v ≠ Scalar.na)) ∨
    ((∀ m, m < t.cols.length →
        ¬((colVals t.rows m).Nodup ∧
          ∀ v ∈ colVals t.rows m, v ≠ Scalar.na)) ∧
      detect_primary_key t = some (t.cols.getD 0 [])) := by
  rcases scanKey_spec t.rows t.cols 0 with ⟨hnone, hall⟩ |
    ⟨i, hi, heq, hg, hprev⟩
  · right
    constructor
    · intro m hm hgood
      have hf := hall m hm
      rw [Nat.zero_add] at hf
      rw [Bool.eq_false_iff] at hf
      exact hf ((goodB_iff t.rows m).mpr hgood)
    · unfold detect_primary_key
      rw [hnone]
      cases hc : t.cols with
      | nil => exact absurd hc h
      | cons a l => simp
  · left
    refine ⟨i, hi, ?_, ?_, ?_⟩
    · unfold detect_primary_key
      rw [heq]
    · rw [Nat.zero_add] at hg
      exact (goodB_iff t.rows i).mp hg
    · intro m hm hgood
      have hf := hprev m hm
      rw [Nat.zero_add] at hf
      rw [Bool.eq_false_iff] at hf
      exact hf ((goodB_iff t.rows m).mpr hgood)

/-- C3 witness: on the table with an all-null first column "a" and a
unique non-null second column "id", the characterization applies (and its
first disjunct is the one realized: the key is "id", the second column). -/
theorem detect_primary_key_first_match_witness :
    tabNullFirst.cols ≠ [] ∧
    ((∃ i, ∃ hi : i < tabNullFirst.cols.length,
      detect_primary_key tabNullFirst =
        some (tabNullFirst.cols.get ⟨i, hi⟩) ∧
      ((colVals tabNullFirst.rows i).Nodup ∧
        ∀ v ∈ colVals tabNullFirst.rows i, v ≠ Scalar.na) ∧
      ∀ m, m < i →
        ¬((colVals tabNullFirst.rows m).Nodup ∧
          ∀ v ∈ colVals tabNullFirst.rows m, v ≠ Scalar.na)) ∨
    ((∀ m, m < tabNullFirst.cols.length →
        ¬((colVals tabNullFirst.rows m).Nodup ∧
          ∀ v ∈ colVals tabNullFirst.rows m, v ≠ Scalar.na)) ∧
      detect_primary_key tabNullFirst =
        some (tabNullFirst.cols.getD 0 []))) :=
  ⟨by decide, detect_primary_key_first_match tabNullFirst (by decide)⟩

/-! ## C8: zero-column tables make key inference fail, not fabricate -/

/-- C8: on a zero-column table `detect_primary_key` produces no key at all:
the loop body never runs and the fallback `df.columns[0]` raises
`IndexError` (modelled as `none`), a failure the caller observes as a
raised error, distinct from a `ParseError` (which is caught inside
`parse_metadata` and surfaces as an empty frame plus a diagnostic, never as
a raised error). -/
theorem detect_primary_key_no_columns (t : Table) (h : t.cols = []) :
    detect_primary_key t = none := by
  obtain ⟨cols, rows⟩ := t
  simp only at h
  subst h
  rfl

/-- C8 witness: the empty frame. -/
theorem detect_primary_key_no_columns_witness :
    emptyTable.cols = [] ∧ detect_primary_key emptyTable = none :=
  ⟨rfl, detect_primary_key_no_columns emptyTable rfl⟩

/-! ## C2: the header normalizer and its frame effect -/

/-- C2 counterexample: on the one-column table labelled "order_id", the
input frame's column labels after the call are NOT the original labels —
`clean_column_headers` renames the columns of the frame it was given
(app.py line 170 assigns `df.columns`), so the claim that the input is
unmutated and distinct from the result fails. -/
theorem clean_column_headers_mutates_cex :
    (clean_column_headers tabOrderId).2.cols ≠ tabOrderId.cols := by
  decide

/-- C2 amended: `clean_column_headers` renames the columns in place: the
returned frame keeps the row data and row order of the input and carries
the title-cased labels, and the input frame after the call IS the returned
frame (same object), so the input's labels are the renamed ones, not the
original ones. -/
theorem clean_column_headers_frame (df : Table) :
    (clean_column_headers df).1.rows = df.rows ∧
    (clean_column_headers df).1.cols = df.cols.map cleanHeader ∧
    (clean_column_headers df).2 = (clean_column_headers df).1 :=
  ⟨rfl, rfl, rfl⟩

/-! ## C7: what the per-label transform does -/

/-- C7 counterexample: on the label "ID" the code produces "Id"
(Python `str.title()` lower-cases the letters after the first of each run),
while the claimed transform — upper-case the first letter of each
whitespace-delimited word, leave the rest unchanged — produces "ID".
So the claim fails on the code. -/
theorem cleanHeader_case_cex :
    cleanHeader [73, 68] = [73, 100] ∧ specClean [73, 68] = [73, 68] ∧
    cleanHeader [73, 68] ≠ specClean [73, 68] := by
  decide

/-- C7 amended: the normalizer replaces every underscore with a space and
then title-cases in the Python sense: each letter whose predecessor (after
the replacement) is not a letter is upper-cased, every other letter is
LOWER-cased (not left unchanged), and word boundaries are all non-letter
characters, not only whitespace.  Stated by pairing every character with
the casedness of its predecessor. -/
theorem cleanHeader_amended (col : PyStr) :
    cleanHeader col = titleAmended (col.map underscoreToSpace) := by
  unfold cleanHeader titleAmended
  exact pyTitle_eq_zip (col.map underscoreToSpace) false

/-! ## C5: JSON inputs whose top level is not an array -/

/-- C5 counterexample: the JSON text with top-level OBJECT value
`obj [a -> arr [1, 2]]` is not a top-level array, yet the JSON branch of
`parse_metadata` parses it into a populated two-row frame with NO reported
diagnostic (pandas `read_json` reads a column-oriented object), so the
claim that every non-array JSON input fails with a ParseError is false. -/
theorem read_json_object_cex :
    Json.isArr jsonObjArr = false ∧
    (parse_metadata_json (some jsonObjArr)).2 = none ∧
    (parse_metadata_json (some jsonObjArr)).1 =
      ⟨[aLbl], [[Scalar.i 1], [Scalar.i 2]]⟩ := by
  decide

/-- C5 amended: a JSON input whose top-level value is a boolean, a number,
or a string fails with a ParseError — the empty frame plus a reported
diagnostic; a top-level null does NOT fail: `pd.read_json` builds
`DataFrame(None)`, the empty frame, raising nothing, so it is returned with
no diagnostic; and a non-array top level does not always yield an empty
result either: a top-level object of equal-length scalar arrays parses into
a populated frame (see the counterexample). -/
theorem read_json_scalar_error (j : Json) (h : j.isNonNullScalar = true) :
    parse_metadata_json (some j) = (emptyTable, some Diag.parseFailure) ∧
    parse_metadata_json (some Json.null) = (emptyTable, none) := by
  refine ⟨?_, rfl⟩
  cases j with
  | null => simp [Json.isNonNullScalar] at h
  | b v => rfl
  | num n => rfl
  | str s => rfl
  | arr xs => simp [Json.isNonNullScalar] at h
  | obj fs => simp [Json.isNonNullScalar] at h

/-- C5 witness: the scalar JSON input `5`. -/
theorem read_json_scalar_error_witness :
    (Json.num 5).isNonNullScalar = true ∧
    (parse_metadata_json (some (Json.num 5)) =
        (emptyTable, some Diag.parseFailure) ∧
      parse_metadata_json (some Json.null) = (emptyTable, none)) :=
  ⟨rfl, read_json_scalar_error (Json.num 5) rfl⟩

/-! ## C6: CSV cell typing -/

/-- Indexing a mapped range: the `i`-th entry of
`(List.range n).map f` is `f i`. -/
theorem getD_range_map {α : Type} (n : Nat) (f : Nat → α) (i : Nat) (d : α)
    (h : i < n) : ((List.range n).map f).getD i d = f i := by
  have hlen : i < ((List.range n).map f).length := by simpa using h
  rw [List.getD_eq_getElem _ _ hlen]
  simp

/-- C6 counterexample: parsing the CSV fixture `id,file` / `1,a.jpg`, the
cell in row 0 of column `id` is the INTEGER 1, not a string —
`pd.read_csv` infers dtypes, so the claim that every parsed cell is
treated as a string is false. -/
theorem read_csv_int_cex :
    ((parse_metadata_csv gridIdFile).1.rows.getD 0 []).getD 0 Scalar.na =
      Scalar.i 1 ∧
    Scalar.isStr (((parse_metadata_csv gridIdFile).1.rows.getD 0 []).getD 0
      Scalar.na) = false := by
  decide

/-- Indexing a mapped list: the `i`-th entry of `l.map f` is `f` of the
`i`-th entry of `l`, for `i` in range. -/
theorem getD_map_of_lt {A B : Type} (f : A -> B) (l : List A) (i : Nat)
    (d : B) (d2 : A) (h : i < l.length) :
    (l.map f).getD i d = f (l.getD i d2) := by
  rw [List.getD_eq_getElem _ _ (by simpa using h), List.getElem_map,
    List.getD_eq_getElem l d2 h]

/-- Pointwise description of the column typing `inferCol`, by its four
branches. -/
theorem inferCol_getD (vals : List PyStr) (i : Nat) (h : i < vals.length) :
    (inferCol vals).getD i Scalar.na =
      (if !vals.isEmpty && vals.all isInt64Lit then
        Scalar.i (intOfLit (vals.getD i []))
      else if vals.all (fun v => isNAToken v ||
          (isIntLit v && intFitsFloat v)) then
        (if isNAToken (vals.getD i []) then Scalar.na
         else Scalar.f (intOfLit (vals.getD i [])))
      else if vals.all (fun v => isNAToken v || numericish v || boolish v)
        then Scalar.other (vals.getD i [])
      else if isNAToken (vals.getD i []) then Scalar.na
      else Scalar.s (vals.getD i [])) := by
  unfold inferCol
  by_cases h1 : (!vals.isEmpty && vals.all isInt64Lit) = true
  · rw [if_pos h1, if_pos h1, getD_map_of_lt _ vals i Scalar.na [] h]
  · rw [if_neg h1, if_neg h1]
    by_cases h2 : (vals.all fun v => isNAToken v ||
        (isIntLit v && intFitsFloat v)) = true
    · rw [if_pos h2, if_pos h2, getD_map_of_lt _ vals i Scalar.na [] h]
    · rw [if_neg h2, if_neg h2]
      by_cases h3 : (vals.all fun v => isNAToken v || numericish v ||
          boolish v) = true
      · rw [if_pos h3, if_pos h3, getD_map_of_lt _ vals i Scalar.na [] h]
      · rw [if_neg h3, if_neg h3, getD_map_of_lt _ vals i Scalar.na [] h]

/-- C6 amended: the CSV parser does not treat every cell as a string and
recognizes more than the empty field as missing — it types cells per
column, following the pandas dtype inference: a nonempty column of int64
literals parses as integers; a column of integer literals and NA tokens
(the empty field and the default NA strings such as NA, NaN, null, None)
widens to float64 — integer-valued floats with the NA tokens as missing
cells; a column whose fields are all NA-, numeric- or boolean-looking
undergoes further float or boolean inference (outside the modelled
fragment, marked `Scalar.other`); any other column keeps its fields as
strings with the NA tokens as missing cells. -/
theorem read_csv_cells (header : List PyStr) (data : List (List PyStr))
    (i j : Nat) (hi : i < data.length) (hj : j < header.length) :
    ((read_csv_table header data).rows.getD i []).getD j Scalar.na =
      (if !(data.map (fun r => r.getD j [])).isEmpty &&
          (data.map (fun r => r.getD j [])).all isInt64Lit then
        Scalar.i (intOfLit ((data.getD i []).getD j []))
      else if (data.map (fun r => r.getD j [])).all (fun v => isNAToken v ||
          (isIntLit v && intFitsFloat v)) then
        (if isNAToken ((data.getD i []).getD j []) then Scalar.na
         else Scalar.f (intOfLit ((data.getD i []).getD j [])))
      else if (data.map (fun r => r.getD j [])).all
          (fun v => isNAToken v || numericish v || boolish v) then
        Scalar.other ((data.getD i []).getD j [])
      else if isNAToken ((data.getD i []).getD j []) then Scalar.na
      else Scalar.s ((data.getD i []).getD j [])) := by
  unfold read_csv_table
  simp only
  rw [getD_range_map data.length _ i [] hi,
    getD_range_map header.length _ j Scalar.na hj]
  have hvlen : i < (data.map (fun r => r.getD j [])).length := by
    simpa using hi
  have hval : (data.map (fun r => r.getD j [])).getD i [] =
      (data.getD i []).getD j [] := by
    rw [List.getD_eq_getElem _ _ hvlen, List.getElem_map,
      List.getD_eq_getElem data [] hi]
  rw [inferCol_getD (data.map (fun r => r.getD j [])) i hvlen, hval]

/-- C6 witness: the amended typing at the CSV fixture, column `file` of
row 0 (an object column: the cell keeps its string form). -/
theorem read_csv_cells_witness :
    0 < csvDataIdFile.length ∧ 1 < csvHeaderIdFile.length ∧
    ((read_csv_table csvHeaderIdFile csvDataIdFile).rows.getD 0 []).getD 1
        Scalar.na =
      (if !(csvDataIdFile.map (fun r => r.getD 1 [])).isEmpty &&
          (csvDataIdFile.map (fun r => r.getD 1 [])).all isInt64Lit then
        Scalar.i (intOfLit ((csvDataIdFile.getD 0 []).getD 1 []))
      else if (csvDataIdFile.map (fun r => r.getD 1 [])).all
          (fun v => isNAToken v || (isIntLit v && intFitsFloat v)) then
        (if isNAToken ((csvDataIdFile.getD 0 []).getD 1 []) then Scalar.na
         else Scalar.f (intOfLit ((csvDataIdFile.getD 0 []).getD 1 [])))
      else if (csvDataIdFile.map (fun r => r.getD 1 [])).all
          (fun v => isNAToken v || numericish v || boolish v) then
        Scalar.other ((csvDataIdFile.getD 0 []).getD 1 [])
      else if isNAToken ((csvDataIdFile.getD 0 []).getD 1 []) then Scalar.na
      else Scalar.s ((csvDataIdFile.getD 0 []).getD 1 [])) :=
  ⟨by decide, by decide,
    read_csv_cells csvHeaderIdFile csvDataIdFile 0 1 (by decide)
      (by decide)⟩

/-! ## C9: idempotence of header normalization -/

/-- C9: header normalization is idempotent — applying
`clean_column_headers` twice yields the same column labels as applying it
once. -/
theorem clean_column_headers_idem (t : Table) :
    (clean_column_headers (clean_column_headers t).1).1.cols =
      (clean_column_headers t).1.cols := by
  show (t.cols.map cleanHeader).map cleanHeader = t.cols.map cleanHeader
  rw [List.map_map]
  exact List.map_congr_left (fun c _ => cleanHeader_idem c)

/-! ## Counting lemmas for the outer merge -/

theorem countP_enumF_snd (p : List Scalar → Bool) :
    ∀ (rs : List (List Scalar)) (n : Nat),
      (enumF n rs).countP (fun x => p x.2) = rs.countP p := by
  intro rs
  induction rs with
  | nil => intro n; rfl
  | cons r rs ih =>
    intro n
    simp only [enumF, List.countP_cons]
    rw [ih (n + 1)]

theorem countP_enumF_lt (p : List Scalar → Bool) :
    ∀ (rs : List (List Scalar)) (n j : Nat), j < n →
      (enumF n rs).countP (fun x => x.1 == j && p x.2) = 0 := by
  intro rs
  induction rs with
  | nil => intro n j _; rfl
  | cons r rs ih =>
    intro n j hj
    simp only [enumF, List.countP_cons]
    rw [ih (n + 1) j (by omega)]
    have hne : (n == j) = false := beq_eq_false_iff_ne.mpr (by omega)
    simp [hne]

theorem countP_enumF_at (p : List Scalar → Bool) :
    ∀ (rs : List (List Scalar)) (n m : Nat) (h : m < rs.length),
      (enumF n rs).countP (fun x => x.1 == (n + m) && p x.2) =
        if p (rs.get ⟨m, h⟩) then 1 else 0 := by
  intro rs
  induction rs with
  | nil => intro n m h; simp at h
  | cons r rs ih =>
    intro n m h
    cases m with
    | zero =>
      simp only [enumF, List.countP_cons, Nat.add_zero]
      rw [countP_enumF_lt p rs (n + 1) n (by omega)]
      simp [beq_self_eq_true]
    | succ m2 =>
      simp only [enumF, List.countP_cons]
      have he : n + (m2 + 1) = (n + 1) + m2 := by omega
      rw [he]
      have h2 : m2 < rs.length := by
        simp only [List.length_cons] at h
        omega
      rw [ih (n + 1) m2 h2]
      have hne : (n == (n + 1) + m2) = false :=
        beq_eq_false_iff_ne.mpr (by omega)
      simp [hne, List.get_cons_succ]

theorem mem_enumF :
    ∀ (rs : List (List Scalar)) (n m : Nat) (h : m < rs.length),
      (n + m, rs.get ⟨m, h⟩) ∈ enumF n rs := by
  intro rs
  induction rs with
  | nil => intro n m h; simp at h
  | cons r rs ih =>
    intro n m h
    cases m with
    | zero => simp [enumF]
    | succ m2 =>
      have h2 : m2 < rs.length := by
        simp only [List.length_cons] at h
        omega
      have he : n + (m2 + 1) = (n + 1) + m2 := by omega
      rw [he]
      simp only [enumF, List.mem_cons, List.get_cons_succ]
      right
      exact ih (n + 1) m2 h2

theorem leftBlock_fst (renum : List (Nat × List Scalar))
    (q : List Scalar → List Scalar → Bool) (li : Nat × List Scalar) :
    ∀ e ∈ leftBlock renum q li, e.1 = some li := by
  intro e he
  simp only [leftBlock] at he
  split at he
  · simp only [List.mem_singleton] at he
    rw [he]
  · rcases List.mem_map.mp he with ⟨ri, -, hri⟩
    rw [← hri]

theorem leftBlock_lidx_ne (renum : List (Nat × List Scalar))
    (q : List Scalar → List Scalar → Bool) (n : Nat) (l : List Scalar)
    (i : Nat) (w : MEntry → Bool) (h : ¬ n = i) :
    (leftBlock renum q (n, l)).countP (fun e => hasLIdx i e && w e) = 0 := by
  rw [List.countP_eq_zero]
  intro e he
  have hfst := leftBlock_fst renum q (n, l) e he
  simp only [Bool.and_eq_true, not_and]
  intro hl
  exfalso
  apply h
  simp only [hasLIdx, hfst] at hl
  exact eq_of_beq hl

theorem leftBlock_lidx_both (renum : List (Nat × List Scalar))
    (q : List Scalar → List Scalar → Bool) (n : Nat) (l : List Scalar) :
    (leftBlock renum q (n, l)).countP (fun e => hasLIdx n e && isBoth e) =
      renum.countP (fun ri => q l ri.2) := by
  simp only [leftBlock]
  split
  · rename_i hemp
    have h0 : renum.countP (fun ri => q l ri.2) = 0 := by
      rw [List.countP_eq_length_filter, List.isEmpty_iff.mp hemp]
      rfl
    rw [h0]
    simp [hasLIdx, isBoth]
  · rw [List.countP_map]
    simp only [Function.comp_def, hasLIdx, isBoth, Option.isSome_some,
      beq_self_eq_true, Bool.and_self, Bool.true_and, Bool.and_true]
    rw [List.countP_true, List.countP_eq_length_filter]

theorem leftBlock_lidx_unm (renum : List (Nat × List Scalar))
    (q : List Scalar → List Scalar → Bool) (n : Nat) (l : List Scalar) :
    (leftBlock renum q (n, l)).countP (fun e => hasLIdx n e && !isBoth e) =
      if renum.countP (fun ri => q l ri.2) = 0 then 1 else 0 := by
  simp only [leftBlock]
  split
  · rename_i hemp
    have h0 : renum.countP (fun ri => q l ri.2) = 0 := by
      rw [List.countP_eq_length_filter, List.isEmpty_iff.mp hemp]
      rfl
    rw [if_pos h0]
    simp [hasLIdx, isBoth]
  · rename_i hemp
    have h0 : renum.countP (fun ri => q l ri.2) ≠ 0 := by
      rw [List.countP_eq_length_filter]
      intro hlen
      exact hemp (by rw [List.isEmpty_iff]; exact List.length_eq_zero.mp hlen)
    rw [if_neg h0, List.countP_eq_zero]
    intro e he
    rcases List.mem_map.mp he with ⟨ri, -, hri⟩
    rw [← hri]
    simp [hasLIdx, isBoth]

theorem leftBlock_ridx_both (rrows : List (List Scalar))
    (q : List Scalar → List Scalar → Bool) (n : Nat) (l : List Scalar)
    (j : Nat) (hj : j < rrows.length) :
    (leftBlock (enumF 0 rrows) q (n, l)).countP
        (fun e => hasRIdx j e && isBoth e) =
      if q l (rrows.get ⟨j, hj⟩) then 1 else 0 := by
  simp only [leftBlock]
  split
  · rename_i hemp
    rw [List.isEmpty_iff] at hemp
    have hq : q l (rrows.get ⟨j, hj⟩) = false := by
      have hmem := mem_enumF rrows 0 j hj
      rw [Nat.zero_add] at hmem
      have hni := List.filter_eq_nil_iff.mp hemp _ hmem
      simpa using hni
    rw [hq]
    simp [hasRIdx, isBoth]
  · rw [List.countP_map]
    simp only [Function.comp_def, hasRIdx, isBoth, Option.isSome_some,
      Bool.and_self, Bool.and_true]
    rw [List.countP_filter]
    have hat := countP_enumF_at (fun r => q l r) rrows 0 j hj
    rw [Nat.zero_add] at hat
    exact hat

theorem leftBlock_ridx_unm (renum : List (Nat × List Scalar))
    (q : List Scalar → List Scalar → Bool) (n : Nat) (l : List Scalar)
    (j : Nat) :
    (leftBlock renum q (n, l)).countP
      (fun e => hasRIdx j e && !isBoth e) = 0 := by
  rw [List.countP_eq_zero]
  intro e he
  simp only [leftBlock] at he
  split at he
  · simp only [List.mem_singleton] at he
    rw [he]
    simp [hasRIdx, isBoth]
  · rcases List.mem_map.mp he with ⟨ri, -, hri⟩
    rw [← hri]
    simp [hasRIdx, isBoth]

theorem leftBlock_both (renum : List (Nat × List Scalar))
    (q : List Scalar → List Scalar → Bool) (n : Nat) (l : List Scalar) :
    (leftBlock renum q (n, l)).countP isBoth =
      renum.countP (fun ri => q l ri.2) := by
  simp only [leftBlock]
  split
  · rename_i hemp
    have h0 : renum.countP (fun ri => q l ri.2) = 0 := by
      rw [List.countP_eq_length_filter, List.isEmpty_iff.mp hemp]
      rfl
    rw [h0]
    rfl
  · rw [List.countP_map]
    simp only [Function.comp_def, isBoth, Option.isSome_some, Bool.and_self]
    rw [List.countP_true, List.countP_eq_length_filter]

theorem leftPart_lidx_lt (renum : List (Nat × List Scalar))
    (q : List Scalar → List Scalar → Bool) (w : MEntry → Bool) :
    ∀ (ls : List (List Scalar)) (n i : Nat), i < n →
      (leftPart renum q n ls).countP (fun e => hasLIdx i e && w e) = 0 := by
  intro ls
  induction ls with
  | nil => intro n i _; rfl
  | cons l ls ih =>
    intro n i hi
    simp only [leftPart, List.countP_append]
    rw [leftBlock_lidx_ne renum q n l i w (by omega),
      ih (n + 1) i (by omega)]

theorem leftPart_lidx_both (renum : List (Nat × List Scalar))
    (q : List Scalar → List Scalar → Bool) :
    ∀ (ls : List (List Scalar)) (n m : Nat) (h : m < ls.length),
      (leftPart renum q n ls).countP
          (fun e => hasLIdx (n + m) e && isBoth e) =
        renum.countP (fun ri => q (ls.get ⟨m, h⟩) ri.2) := by
  intro ls
  induction ls with
  | nil => intro n m h; simp at h
  | cons l ls ih =>
    intro n m h
    simp only [leftPart, List.countP_append]
    cases m with
    | zero =>
      rw [Nat.add_zero]
      rw [leftBlock_lidx_both renum q n l,
        leftPart_lidx_lt renum q isBoth ls (n + 1) n (by omega)]
      rfl
    | succ m2 =>
      have h2 : m2 < ls.length := by
        simp only [List.length_cons] at h
        omega
      rw [leftBlock_lidx_ne renum q n l (n + (m2 + 1)) isBoth (by omega)]
      have he : n + (m2 + 1) = (n + 1) + m2 := by omega
      rw [he, ih (n + 1) m2 h2]
      simp [List.get_cons_succ]

theorem leftPart_lidx_unm (renum : List (Nat × List Scalar))
    (q : List Scalar → List Scalar → Bool) :
    ∀ (ls : List (List Scalar)) (n m : Nat) (h : m < ls.length),
      (leftPart renum q n ls).countP
          (fun e => hasLIdx (n + m) e && !isBoth e) =
        if renum.countP (fun ri => q (ls.get ⟨m, h⟩) ri.2) = 0 then 1
        else 0 := by
  intro ls
  induction ls with
  | nil => intro n m h; simp at h
  | cons l ls ih =>
    intro n m h
    simp only [leftPart, List.countP_append]
    cases m with
    | zero =>
      rw [Nat.add_zero]
      rw [leftBlock_lidx_unm renum q n l,
        leftPart_lidx_lt renum q (fun e => !isBoth e) ls (n + 1) n
          (by omega)]
      rfl
    | succ m2 =>
      have h2 : m2 < ls.length := by
        simp only [List.length_cons] at h
        omega
      rw [leftBlock_lidx_ne renum q n l (n + (m2 + 1))
        (fun e => !isBoth e) (by omega)]
      have he : n + (m2 + 1) = (n + 1) + m2 := by omega
      rw [he, ih (n + 1) m2 h2]
      simp [List.get_cons_succ]

theorem leftPart_ridx_both (rrows : List (List Scalar))
    (q : List Scalar → List Scalar → Bool) (j : Nat)
    (hj : j < rrows.length) :
    ∀ (ls : List (List Scalar)) (n : Nat),
      (leftPart (enumF 0 rrows) q n ls).countP
          (fun e => hasRIdx j e && isBoth e) =
        ls.countP (fun l => q l (rrows.get ⟨j, hj⟩)) := by
  intro ls
  induction ls with
  | nil => intro n; rfl
  | cons l ls ih =>
    intro n
    simp only [leftPart, List.countP_append, List.countP_cons]
    rw [leftBlock_ridx_both rrows q n l j hj, ih (n + 1)]
    omega

theorem leftPart_ridx_unm (renum : List (Nat × List Scalar))
    (q : List Scalar → List Scalar → Bool) (j : Nat) :
    ∀ (ls : List (List Scalar)) (n : Nat),
      (leftPart renum q n ls).countP
        (fun e => hasRIdx j e && !isBoth e) = 0 := by
  intro ls
  induction ls with
  | nil => intro n; rfl
  | cons l ls ih =>
    intro n
    simp only [leftPart, List.countP_append]
    rw [leftBlock_ridx_unm renum q n l j, ih (n + 1)]

theorem leftPart_both (renum : List (Nat × List Scalar))
    (q : List Scalar → List Scalar → Bool) :
    ∀ (ls : List (List Scalar)) (n : Nat),
      (leftPart renum q n ls).countP isBoth =
        (ls.map (fun l => renum.countP (fun ri => q l ri.2))).sum := by
  intro ls
  induction ls with
  | nil => intro n; rfl
  | cons l ls ih =>
    intro n
    simp only [leftPart, List.countP_append, List.map_cons, List.sum_cons]
    rw [leftBlock_both renum q n l, ih (n + 1)]

theorem rightPart_fst_none (lrows : List (List Scalar))
    (renum : List (Nat × List Scalar))
    (q : List Scalar → List Scalar → Bool) :
    ∀ e ∈ rightPart lrows renum q, e.1 = none := by
  intro e he
  rcases List.mem_map.mp he with ⟨ri, -, hri⟩
  rw [← hri]

theorem rightPart_lidx (lrows : List (List Scalar))
    (renum : List (Nat × List Scalar))
    (q : List Scalar → List Scalar → Bool) (i : Nat) (w : MEntry → Bool) :
    (rightPart lrows renum q).countP (fun e => hasLIdx i e && w e) = 0 := by
  rw [List.countP_eq_zero]
  intro e he
  have hfst := rightPart_fst_none lrows renum q e he
  simp [hasLIdx, hfst]

theorem rightPart_both (lrows : List (List Scalar))
    (renum : List (Nat × List Scalar))
    (q : List Scalar → List Scalar → Bool) :
    (rightPart lrows renum q).countP isBoth = 0 := by
  rw [List.countP_eq_zero]
  intro e he
  have hfst := rightPart_fst_none lrows renum q e he
  simp [isBoth, hfst]

theorem rightPart_ridx_both (lrows : List (List Scalar))
    (renum : List (Nat × List Scalar))
    (q : List Scalar → List Scalar → Bool) (j : Nat) :
    (rightPart lrows renum q).countP
      (fun e => hasRIdx j e && isBoth e) = 0 := by
  rw [List.countP_eq_zero]
  intro e he
  have hfst := rightPart_fst_none lrows renum q e he
  simp [isBoth, hfst]

theorem all_not_countP (lrows : List (List Scalar))
    (q : List Scalar → List Scalar → Bool) (r : List Scalar) :
    lrows.all (fun l => !q l r) = true ↔
      lrows.countP (fun l => q l r) = 0 := by
  rw [List.all_eq_true, List.countP_eq_zero]
  constructor
  · intro h a ha
    have := h a ha
    simp only [Bool.not_eq_true'] at this
    simp [this]
  · intro h a ha
    have := h a ha
    simp only [Bool.not_eq_true']
    exact Bool.eq_false_iff.mpr this

theorem rightPart_ridx_unm (lrows rrows : List (List Scalar))
    (q : List Scalar → List Scalar → Bool) (j : Nat)
    (hj : j < rrows.length) :
    (rightPart lrows (enumF 0 rrows) q).countP
        (fun e => hasRIdx j e && !isBoth e) =
      if lrows.countP (fun l => q l (rrows.get ⟨j, hj⟩)) = 0 then 1
      else 0 := by
  unfold rightPart
  rw [List.countP_map]
  simp only [Function.comp_def, hasRIdx, isBoth, Option.isSome_some,
    Option.isSome_none, Bool.and_false, Bool.false_and, Bool.not_false,
    Bool.and_true]
  rw [List.countP_filter]
  have hat := countP_enumF_at (fun r => lrows.all (fun l => !q l r)) rrows 0
    j hj
  rw [Nat.zero_add] at hat
  rw [hat]
  by_cases hz : lrows.countP (fun l => q l (rrows.get ⟨j, hj⟩)) = 0
  · rw [if_pos ((all_not_countP lrows q (rrows.get ⟨j, hj⟩)).mpr hz),
      if_pos hz]
  · rw [if_neg hz, if_neg]
    intro hall
    exact hz ((all_not_countP lrows q (rrows.get ⟨j, hj⟩)).mp hall)

/-- Per left row occurrence counts of `match_data`: the left row at
position `i` occurs in the matched part once per key-equal right row, and
in the unmatched part exactly when it has no key-equal right row. -/
theorem match_data_entries_left (left right : Table) (lk rk : PyStr)
    (i : Nat) (hi : i < left.rows.length) :
    (match_data_entries left right lk rk).1.countP (hasLIdx i) =
      right.rows.countP (fun r =>
        keyEq left.cols right.cols lk rk (left.rows.get ⟨i, hi⟩) r) ∧
    (match_data_entries left right lk rk).2.countP (hasLIdx i) =
      (if right.rows.countP (fun r =>
          keyEq left.cols right.cols lk rk (left.rows.get ⟨i, hi⟩) r) = 0
       then 1 else 0) := by
  constructor
  · have e1 : (match_data_entries left right lk rk).1.countP (hasLIdx i) =
        (outerMergeE left right lk rk).countP
          (fun e => hasLIdx i e && isBoth e) := by
      show ((outerMergeE left right lk rk).filter isBoth).countP
        (hasLIdx i) = _
      rw [List.countP_filter]
    rw [e1]
    unfold outerMergeE
    rw [List.countP_append,
      rightPart_lidx left.rows (enumF 0 right.rows)
        (keyEq left.cols right.cols lk rk) i isBoth, Nat.add_zero]
    have hlp := leftPart_lidx_both (enumF 0 right.rows)
      (keyEq left.cols right.cols lk rk) left.rows 0 i hi
    rw [Nat.zero_add] at hlp
    rw [hlp, countP_enumF_snd]
  · have e1 : (match_data_entries left right lk rk).2.countP (hasLIdx i) =
        (outerMergeE left right lk rk).countP
          (fun e => hasLIdx i e && !isBoth e) := by
      show ((outerMergeE left right lk rk).filter
        (fun e => !isBoth e)).countP (hasLIdx i) = _
      rw [List.countP_filter]
    rw [e1]
    unfold outerMergeE
    rw [List.countP_append,
      rightPart_lidx left.rows (enumF 0 right.rows)
        (keyEq left.cols right.cols lk rk) i (fun e => !isBoth e),
      Nat.add_zero]
    have hlp := leftPart_lidx_unm (enumF 0 right.rows)
      (keyEq left.cols right.cols lk rk) left.rows 0 i hi
    rw [Nat.zero_add] at hlp
    rw [hlp, countP_enumF_snd]

/-- Per right row occurrence counts of `match_data`: the right row at
position `j` occurs in the matched part once per key-equal left row, and
in the unmatched part exactly when it has no key-equal left row. -/
theorem match_data_entries_right (left right : Table) (lk rk : PyStr)
    (j : Nat) (hj : j < right.rows.length) :
    (match_data_entries left right lk rk).1.countP (hasRIdx j) =
      left.rows.countP (fun l =>
        keyEq left.cols right.cols lk rk l (right.rows.get ⟨j, hj⟩)) ∧
    (match_data_entries left right lk rk).2.countP (hasRIdx j) =
      (if left.rows.countP (fun l =>
          keyEq left.cols right.cols lk rk l (right.rows.get ⟨j, hj⟩)) = 0
       then 1 else 0) := by
  constructor
  · have e1 : (match_data_entries left right lk rk).1.countP (hasRIdx j) =
        (outerMergeE left right lk rk).countP
          (fun e => hasRIdx j e && isBoth e) := by
      show ((outerMergeE left right lk rk).filter isBoth).countP
        (hasRIdx j) = _
      rw [List.countP_filter]
    rw [e1]
    unfold outerMergeE
    rw [List.countP_append,
      rightPart_ridx_both left.rows (enumF 0 right.rows)
        (keyEq left.cols right.cols lk rk) j, Nat.add_zero,
      leftPart_ridx_both right.rows (keyEq left.cols right.cols lk rk) j hj
        left.rows 0]
  · have e1 : (match_data_entries left right lk rk).2.countP (hasRIdx j) =
        (outerMergeE left right lk rk).countP
          (fun e => hasRIdx j e && !isBoth e) := by
      show ((outerMergeE left right lk rk).filter
        (fun e => !isBoth e)).countP (hasRIdx j) = _
      rw [List.countP_filter]
    rw [e1]
    unfold outerMergeE
    rw [List.countP_append,
      leftPart_ridx_unm (enumF 0 right.rows)
        (keyEq left.cols right.cols lk rk) j left.rows 0, Nat.zero_add,
      rightPart_ridx_unm left.rows right.rows
        (keyEq left.cols right.cols lk rk) j hj]

/-! ## C1: every input row lands in exactly one partition -/

/-- C1: for every pair of input tables and key columns, every left row and
every right row occurs in exactly one of the two parts returned by
`match_data` (in the matched part iff some row on the other side has an
equal key, in the unmatched part iff none does), and a row whose key equals
the key of exactly one row on the other side occurs exactly once in the
matched part and zero times in the unmatched part. -/
theorem match_data_partition (left right : Table) (lk rk : PyStr)
    (hlk : lk ∈ left.cols) (hrk : rk ∈ right.cols) :
    (∀ i, ∀ hi : i < left.rows.length,
      (((match_data_entries left right lk rk).1.countP (hasLIdx i) ≠ 0 ∧
        (match_data_entries left right lk rk).2.countP (hasLIdx i) = 0) ∨
       ((match_data_entries left right lk rk).1.countP (hasLIdx i) = 0 ∧
        (match_data_entries left right lk rk).2.countP (hasLIdx i) ≠ 0)) ∧
      (right.rows.countP (fun r => keyEq left.cols right.cols lk rk
          (left.rows.get ⟨i, hi⟩) r) = 1 →
        (match_data_entries left right lk rk).1.countP (hasLIdx i) = 1 ∧
        (match_data_entries left right lk rk).2.countP (hasLIdx i) = 0)) ∧
    (∀ j, ∀ hj : j < right.rows.length,
      (((match_data_entries left right lk rk).1.countP (hasRIdx j) ≠ 0 ∧
        (match_data_entries left right lk rk).2.countP (hasRIdx j) = 0) ∨
       ((match_data_entries left right lk rk).1.countP (hasRIdx j) = 0 ∧
        (match_data_entries left right lk rk).2.countP (hasRIdx j) ≠ 0)) ∧
      (left.rows.countP (fun l => keyEq left.cols right.cols lk rk
          l (right.rows.get ⟨j, hj⟩)) = 1 →
        (match_data_entries left right lk rk).1.countP (hasRIdx j) = 1 ∧
        (match_data_entries left right lk rk).2.countP (hasRIdx j) = 0)) := by
  constructor
  · intro i hi
    obtain ⟨hm, hu⟩ := match_data_entries_left left right lk rk i hi
    constructor
    · by_cases hz : right.rows.countP (fun r => keyEq left.cols right.cols
          lk rk (left.rows.get ⟨i, hi⟩) r) = 0
      · right
        rw [hm, hu, if_pos hz]
        exact ⟨hz, by omega⟩
      · left
        rw [hm, hu, if_neg hz]
        exact ⟨hz, rfl⟩
    · intro hone
      rw [hm, hu, hone, if_neg (by omega)]
      exact ⟨rfl, rfl⟩
  · intro j hj
    obtain ⟨hm, hu⟩ := match_data_entries_right left right lk rk j hj
    constructor
    · by_cases hz : left.rows.countP (fun l => keyEq left.cols right.cols
          lk rk l (right.rows.get ⟨j, hj⟩)) = 0
      · right
        rw [hm, hu, if_pos hz]
        exact ⟨hz, by omega⟩
      · left
        rw [hm, hu, if_neg hz]
        exact ⟨hz, rfl⟩
    · intro hone
      rw [hm, hu, hone, if_neg (by omega)]
      exact ⟨rfl, rfl⟩

/-- C1 witness: on the one-row tables with equal keys, the partition
theorem applies and gives: the left row at position 0 occurs exactly once
in the matched part and not at all in the unmatched part. -/
theorem match_data_partition_witness :
    kLbl ∈ tabL1.cols ∧ kLbl ∈ tabR1.cols ∧
    ((match_data_entries tabL1 tabR1 kLbl kLbl).1.countP (hasLIdx 0) = 1 ∧
     (match_data_entries tabL1 tabR1 kLbl kLbl).2.countP (hasLIdx 0) = 0) :=
  ⟨by decide, by decide,
    ((match_data_partition tabL1 tabR1 kLbl kLbl (by decide)
      (by decide)).1 0 (by decide)).2 (by decide)⟩

/-! ## C4: cross-product multiplicity of the matcher -/

/-- C4: the matched part has exactly one row per key-equal combination of
a left and a right row — its size is the sum, over the left rows, of the
number of key-equal right rows; in particular two left rows with key 5
against one right row with key 5 give exactly 2 matched rows. -/
theorem match_data_multiplicity (left right : Table) (lk rk : PyStr)
    (hlk : lk ∈ left.cols) (hrk : rk ∈ right.cols) :
    (match_data_entries left right lk rk).1.length =
      (left.rows.map (fun l => right.rows.countP
        (fun r => keyEq left.cols right.cols lk rk l r))).sum ∧
    (match_data_entries tabL5 tabR5 kLbl kLbl).1.length = 2 := by
  constructor
  · show ((outerMergeE left right lk rk).filter isBoth).length = _
    rw [← List.countP_eq_length_filter]
    unfold outerMergeE
    rw [List.countP_append,
      rightPart_both left.rows (enumF 0 right.rows)
        (keyEq left.cols right.cols lk rk), Nat.add_zero,
      leftPart_both (enumF 0 right.rows)
        (keyEq left.cols right.cols lk rk) left.rows 0]
    congr 1
    apply List.map_congr_left
    intro l _
    rw [countP_enumF_snd]
  · decide

/-- C4 witness: the multiplicity theorem applied at the spec's own
fixture (two left rows with key 5, one right row with key 5). -/
theorem match_data_multiplicity_witness :
    kLbl ∈ tabL5.cols ∧ kLbl ∈ tabR5.cols ∧
    (match_data_entries tabL5 tabR5 kLbl kLbl).1.length = 2 :=
  ⟨by decide, by decide,
    (match_data_multiplicity tabL5 tabR5 kLbl kLbl (by decide)
      (by decide)).2⟩

/-! ## C10: the merge indicator column -/

/-- The label `k` never survives `dropColumn t k`. -/
theorem dropColumn_not_mem (t : Table) (k : PyStr) :
    k ∉ (dropColumn t k).cols := by
  unfold dropColumn
  simp only
  intro hmem
  rcases List.mem_filter.mp hmem with ⟨-, hcond⟩
  simp at hcond

/-- C10: when neither input has a column labelled `_merge` (otherwise
`pd.merge(..., indicator=True)` raises) and the key labels are present,
both frames returned by `match_data` carry the extra indicator column
`_merge` — a column of neither input's schema — and the caller's
`drop(columns=["_merge"])` (results_page, app.py 364-365) is what removes
it. -/
theorem match_data_indicator_column (left right : Table) (lk rk : PyStr)
    (h1 : mergeName ∉ left.cols) (h2 : mergeName ∉ right.cols)
    (hlk : lk ∈ left.cols) (hrk : rk ∈ right.cols) :
    ∃ m u, match_data left right lk rk = some (m, u) ∧
      mergeName ∈ m.cols ∧ mergeName ∈ u.cols ∧
      mergeName ∉ (dropColumn m mergeName).cols ∧
      mergeName ∉ (dropColumn u mergeName).cols := by
  have hcond : ¬(mergeName ∈ left.cols ∨ mergeName ∈ right.cols) := by
    rintro (h | h)
    · exact h1 h
    · exact h2 h
  have hsome : match_data left right lk rk = some
      (⟨mergedCols left.cols right.cols lk rk,
        (match_data_entries left right lk rk).1.map
          (mergedRow left right lk rk)⟩,
       ⟨mergedCols left.cols right.cols lk rk,
        (match_data_entries left right lk rk).2.map
          (mergedRow left right lk rk)⟩) := by
    unfold match_data
    rw [if_neg hcond, if_pos ⟨hlk, hrk⟩]
  refine ⟨_, _, hsome, ?_, ?_, dropColumn_not_mem _ _,
    dropColumn_not_mem _ _⟩
  · simp [mergedCols]
  · simp [mergedCols]

/-- C10 witness: the one-row fixtures. -/
theorem match_data_indicator_column_witness :
    mergeName ∉ tabL1.cols ∧ mergeName ∉ tabR1.cols ∧
    kLbl ∈ tabL1.cols ∧ kLbl ∈ tabR1.cols ∧
    (∃ m u, match_data tabL1 tabR1 kLbl kLbl = some (m, u) ∧
      mergeName ∈ m.cols ∧ mergeName ∈ u.cols ∧
      mergeName ∉ (dropColumn m mergeName).cols ∧
      mergeName ∉ (dropColumn u mergeName).cols) :=
  ⟨by decide, by decide, by decide, by decide,
    match_data_indicator_column tabL1 tabR1 kLbl kLbl (by decide)
      (by decide) (by decide) (by decide)⟩
